import Mathlib

/-!
Verification development for the Swagger 2.0 → Refract adapter
(`src/adapter.js`).  The definitions below are a shallow embedding of the
adapter's data model and algorithms, translated from the JavaScript source:

* JSON values (`JsonVal`) with JavaScript truthiness,
* the yaml-js AST (`YNode`) and the source-position resolver `getPosition`,
* the diagnostic catalog (`ANNOTATIONS`) and the validation-error queue,
* the parameter classifier `convertParameterToElement`,
* the host/schemes metadata step and the response/transaction fan-out,
* the tag-based resource-grouping decision (`useResourceGroups`) and the
  grouping pass of `parse`.

JavaScript iteration over plain objects is modelled by association lists in
insertion order (underscore's `_.each` follows `Object.keys` order and
ignores the iteratee's return value).  Unbounded loops in the source (the
position resolver can follow reference cycles forever) are modelled with an
explicit fuel parameter and a distinguished `noFuel` outcome.
-/

/-- A JSON value, as produced by `yaml.safeLoad` / JSON input.  `undefined`
is not a JSON value; absence is modelled with `Option` at use sites. -/
inductive JsonVal where
  | null : JsonVal
  | bool : Bool → JsonVal
  | num : Int → JsonVal
  | str : String → JsonVal
  | arr : List JsonVal → JsonVal
  | obj : List (String × JsonVal) → JsonVal
deriving Repr

/-- JavaScript truthiness of a JSON value (`if (x)`): `null`, `false`, `0`
and `''` are falsy; every array and object is truthy. -/
def jsTruthy : JsonVal → Bool
  | .null => false
  | .bool b => b
  | .num n => n != 0
  | .str s => s != ""
  | .arr _ => true
  | .obj _ => true

/-- JavaScript truthiness of a possibly-absent value:
`undefined` is falsy. -/
def jsTruthyOpt : Option JsonVal → Bool
  | none => false
  | some v => jsTruthy v

/-- Truthiness of a possibly-absent string (absent or empty → falsy). -/
def strTruthy : Option String → Bool
  | none => false
  | some s => s != ""

/-- JavaScript `String.prototype.toUpperCase` (ASCII). -/
def toUpperStr (s : String) : String :=
  String.mk (s.data.map Char.toUpper)

/-! ## Diagnostics

The adapter's annotation catalog (`ANNOTATIONS` in `adapter.js`): each kind
has a severity class, a numeric code and a documentation fragment. -/

structure DiagKind where
  type : String
  code : Nat
  fragment : String
deriving Repr, DecidableEq

def CANNOT_PARSE : DiagKind := ⟨"error", 1, "yaml-parser"⟩
def AST_UNAVAILABLE : DiagKind := ⟨"warning", 2, "yaml-parser"⟩
def DATA_LOST : DiagKind := ⟨"warning", 3, "refract-not-supported"⟩
def VALIDATION_ERROR : DiagKind := ⟨"warning", 4, "swagger-validation"⟩

/-- One emitted annotation (`makeAnnotation`): the kind's severity class and
code, the logical path used for the source map (when any), and the message. -/
structure Diag where
  kind : DiagKind
  path : Option String
  message : String
deriving Repr, DecidableEq

/-! ## The yaml-js AST and the position resolver (`getPosition`)

A composed yaml-js node has a `value` (a string for scalars, an array of
nodes for sequences, an array of `[key, value]` pairs for mappings) and
`start_mark.pointer` / `end_mark.pointer` byte offsets. -/

inductive YNode where
  | scalar : String → Nat → Nat → YNode
  | seq : List YNode → Nat → Nat → YNode
  | map : List (YNode × YNode) → Nat → Nat → YNode
deriving Repr

def YNode.startPtr : YNode → Nat
  | .scalar _ s _ => s
  | .seq _ s _ => s
  | .map _ s _ => s

def YNode.endPtr : YNode → Nat
  | .scalar _ _ e => e
  | .seq _ _ e => e
  | .map _ _ e => e

/-- Values the resolver's `node` variable can hold at run time.  Besides
proper yaml nodes, JavaScript indexing can produce a `[key, value]` pair
(indexing into a mapping's `value` array) or a one-character string
(indexing into a scalar's string value). -/
inductive JVal where
  | node : YNode → JVal
  | pair : YNode → YNode → JVal
  | chr : String → JVal
deriving Repr

/-- Outcome of `getPosition`.  The JavaScript function returns `null`
(`nullRes`), or a `{start, end}` record whose fields may individually be
`undefined` (`obj`), or throws a `TypeError` (`crash`).  `noFuel` marks
exhaustion of the model's fuel (the source's loop is unbounded). -/
inductive PosResult where
  | obj : Option Nat → Option Nat → PosResult
  | nullRes : PosResult
  | crash : PosResult
  | noFuel : PosResult
deriving Repr, DecidableEq

/-- The index-suffix regex `/(.*)\[([0-9])+\]$/` of `getPosition`.  The
quantifier applies to the capture group, so the second capture is the
**last** digit of the bracketed run; the first capture is everything before
the final `[digits]`.  Returns the stripped piece and the parsed index. -/
def parseIndexSuffix (s : String) : String × Option Nat :=
  match s.data.reverse with
  | ']' :: rest =>
    let digits := rest.takeWhile Char.isDigit
    let rest2 := rest.dropWhile Char.isDigit
    match digits, rest2 with
    | d :: _, '[' :: pre => (String.mk pre.reverse, some (d.toNat - '0'.toNat))
    | _, _ => (s, none)
  | _ => (s, none)

/-- JavaScript `String.prototype.split` with a one-character separator:
splitting the empty string yields `['']`, and a trailing separator yields a
trailing empty segment. -/
def splitOnCharAux (sep : Char) : List Char → List Char → List String
  | [], acc => [String.mk acc.reverse]
  | c :: cs, acc =>
    if c = sep then String.mk acc.reverse :: splitOnCharAux sep cs []
    else splitOnCharAux sep cs (c :: acc)

def splitOnChar (sep : Char) (s : String) : List String :=
  splitOnCharAux sep s.data []

/-- `value.indexOf('#') === 0`: the string's first character is `c`. -/
def firstCharIs (c : Char) (s : String) : Bool :=
  match s.data with
  | [] => false
  | c2 :: _ => c2 = c

/-- Result of scanning a mapping's children (`for (const subNode of
node.value)`): the first pair whose key is the scalar `piece` wins; failing
that, the first `$ref` pair whose value is a scalar beginning with `#`
triggers a restart; `$ref` pairs with other values are logged and skipped. -/
inductive ScanHit where
  | keyHit : YNode → YNode → ScanHit
  | refHit : String → ScanHit
  | miss : ScanHit
deriving Repr

def scanPairs (piece : String) : List (YNode × YNode) → ScanHit
  | [] => .miss
  | (k, v) :: rest =>
    match k with
    | .scalar s _ _ =>
      if s = piece then .keyHit k v
      else if s = "$ref" then
        match v with
        | .scalar rv _ _ =>
          if firstCharIs '#' rv then .refHit rv else scanPairs piece rest
        | _ => scanPairs piece rest
      else scanPairs piece rest
    | _ => scanPairs piece rest

/-- JavaScript `node.value[index]`: a pair for mappings, a node for
sequences, a one-character string for scalars; `none` is `undefined`. -/
def jindex : YNode → Nat → Option JVal
  | .map pairs _ _, i => (pairs.get? i).map (fun kv => JVal.pair kv.1 kv.2)
  | .seq items _ _, i => (items.get? i).map JVal.node
  | .scalar s _ _, i => (s.data.get? i).map (fun c => JVal.chr (String.mk [c]))

/-- `value.substr(2).split('/')` applied to an internal `$ref` string. -/
def refSegments (rv : String) : List String :=
  splitOnChar '/' (String.mk (rv.data.drop 2))

/-- The loop body of `getPosition`.  `piece?` is the current `piece`
variable (`none` is `undefined`), `pieces` the remaining stack.  When the
loop condition `while (piece)` fails the function returns the `{start, end}`
record — with both fields still `undefined` unless the final segment was
matched.  One unit of fuel is one loop iteration. -/
def getPosAux (ast : YNode) : Nat → JVal → Option String → List String → PosResult
  | _, _, none, _ => .obj none none
  | fuel, nd, some p0, pieces =>
    if p0 = "" then .obj none none
    else
      match fuel with
      | 0 => .noFuel
      | fuel' + 1 =>
        let pi := parseIndexSuffix p0
        let piece := pi.1
        let index? := pi.2
        match nd with
        | .node (.map pairs _ _) =>
          match scanPairs piece pairs with
          | .keyHit k v =>
            match pieces with
            | _ :: _ =>
              let newNode : Option JVal :=
                match index? with
                | none => some (JVal.node v)
                | some i => jindex v i
              match newNode with
              | none => .nullRes
              | some nn => getPosAux ast fuel' nn pieces.head? pieces.tail
            | [] =>
              match index? with
              | some i =>
                match jindex v i with
                | some (JVal.node el) => .obj (some el.startPtr) (some el.endPtr)
                | _ => .crash
              | none => .obj (some k.startPtr) (some v.endPtr)
          | .refHit rv =>
            let newPieces := refSegments rv ++ piece :: pieces
            getPosAux ast fuel' (JVal.node ast) newPieces.head? newPieces.tail
          | .miss => .nullRes
        | .node (.seq _ _ _) => .nullRes
        | .node (.scalar _ _ _) => .nullRes
        | .pair _ _ => .crash
        | .chr _ => .crash

/-- `getPosition(ast, path)` with the path already split into segments (the
source splits a string path on `.`, or copies an array path with
`splice(0)`), run with the given fuel. -/
def getPosition (ast : YNode) (path : List String) (fuel : Nat) : PosResult :=
  match path with
  | [] => getPosAux ast fuel (JVal.node ast) none []
  | p :: rest => getPosAux ast fuel (JVal.node ast) (some p) rest

/-- `getPosition` on a string path: `path.split('.')` (an empty string
splits to `['']`). -/
def getPositionStr (ast : YNode) (path : String) (fuel : Nat) : PosResult :=
  getPosition ast (splitOnChar '.' path) fuel

/-! ## Validation errors (`parse`, validate callback)

`parser.validate` may fail with an error carrying a `details` list; each
detail has a `path`, a `message`, and possibly a nested `inner` list.  The
adapter drains them breadth-first through an explicit queue, emitting one
`VALIDATION_ERROR` annotation per item. -/

inductive ErrItem where
  | mk : Option String → String → Option (List ErrItem) → ErrItem
deriving Repr

def ErrItem.path : ErrItem → Option String
  | .mk p _ _ => p

def ErrItem.message : ErrItem → String
  | .mk _ m _ => m

def ErrItem.inner : ErrItem → Option (List ErrItem)
  | .mk _ _ i => i

mutual

/-- Total number of items in an error tree (the item plus all nested
inner items, transitively). -/
def ErrItem.count : ErrItem → Nat
  | .mk _ _ none => 1
  | .mk _ _ (some l) => 1 + countItems l

def countItems : List ErrItem → Nat
  | [] => 0
  | x :: xs => ErrItem.count x + countItems xs

end

mutual

/-- Fuel weight of an error tree: enough loop iterations to drain it. -/
def ErrItem.weight : ErrItem → Nat
  | .mk _ _ none => 1
  | .mk _ _ (some l) => 2 + weightItems l

def weightItems : List ErrItem → Nat
  | [] => 0
  | x :: xs => ErrItem.weight x + weightItems xs

end

/-- Fuel weight of the whole queue. -/
def queueMeasure (q : List (List ErrItem)) : Nat :=
  (q.map (fun l => 1 + weightItems l)).sum

/-- Total number of items reachable from the queue. -/
def totalItems (q : List (List ErrItem)) : Nat :=
  (q.map countItems).sum

/-- The annotation emitted for one validation error item
(`makeAnnotation(..., ANNOTATIONS.VALIDATION_ERROR, item.path,
item.message)`). -/
def annotationOf (it : ErrItem) : Diag :=
  ⟨VALIDATION_ERROR, it.path, it.message⟩

/-- The breadth-first drain loop of the validate callback: while the queue
is non-empty, annotate every item of the front list, push each item's
`inner` list (when defined) on the back, then shift the front.  One unit of
fuel per `while` iteration; the `Bool` reports whether the queue drained. -/
def processQueue : Nat → List (List ErrItem) → List Diag → List Diag × Bool
  | _, [], acc => (acc, true)
  | 0, _ :: _, acc => (acc, false)
  | fuel + 1, l :: rest, acc =>
    processQueue fuel (rest ++ l.filterMap ErrItem.inner) (acc ++ l.map annotationOf)

/-- The branch structure of the validate callback (`parse`, lines 324–352):
given the validation error (if any) and whether `parser.api` is defined,
return the single completion call's error argument, the diagnostics
appended to the result, and whether the root api Category gets built.  The
source guarantees a single invocation of `done` by returning at the fatal
branch. -/
def validateDispatch (err : Option (Option (List ErrItem)))
    (apiPresent : Bool) (prior : List Diag) (fuel : Nat) :
    Option (Option (List ErrItem)) × List Diag × Bool :=
  match err with
  | some details =>
    if apiPresent then
      let newDiags :=
        match details with
        | some det => (processQueue fuel [det] []).1
        | none => []
      (none, prior ++ newDiags, true)
    else
      (some details, prior, false)
  | none => (none, prior, true)

/-! ## Parameter classifier (`convertParameterToElement`) -/

/-- A Swagger parameter definition (the fields the adapter reads). -/
structure ParameterM where
  name : String
  type : Option String
  description : Option String
  required : Bool
  paramDefault : Option JsonVal
  paramIn : Option String
  schema : Option JsonVal

/-- The minim element class chosen for the member's value placeholder. -/
inductive ElemKind where
  | stringE
  | numberE
  | booleanE
  | arrayE
deriving Repr, DecidableEq

/-- The value placeholder built by the classifier: its element class and
its attribute map (a truthy default lands here). -/
structure ValueElem where
  kind : ElemKind
  attrs : List (String × JsonVal)

/-- The member element built by the classifier.  `attrs` is the member's
own attribute map (`typeAttributes` lands here; a default never does). -/
structure MemberElem where
  name : String
  value : ValueElem
  description : Option String
  attrs : List (String × JsonVal)

/-- `convertParameterToElement(minim, parameter)`: map the declared type to
a typed placeholder (anything unrecognized falls back to a string), wrap it
in a member named after the parameter, carry a truthy description, flag
requiredness via `typeAttributes`, and attach a truthy default to the value
placeholder's attributes. -/
def convertParameterToElement (p : ParameterM) : MemberElem :=
  let kind : ElemKind :=
    if p.type = some "string" then .stringE
    else if p.type = some "integer" ∨ p.type = some "number" then .numberE
    else if p.type = some "boolean" then .booleanE
    else if p.type = some "array" then .arrayE
    else .stringE
  let valueAttrs : List (String × JsonVal) :=
    match p.paramDefault with
    | some d => if jsTruthy d then [("default", d)] else []
    | none => []
  let memberAttrs : List (String × JsonVal) :=
    if p.required then [("typeAttributes", .arr [.str "required"])] else []
  { name := p.name
    value := { kind := kind, attrs := valueAttrs }
    description := if strTruthy p.description then p.description else none
    attrs := memberAttrs }

/-! ## JSON serialization (`JSON.stringify`)

The adapter serializes schemas compactly (`JSON.stringify(x)`) and
non-string example bodies with two-space indentation
(`JSON.stringify(x, null, 2)`). -/

/-- Escape one character for a JSON string literal. -/
def jsonEscapeChar (c : Char) : String :=
  if c = '"' then "\\\""
  else if c = '\\' then "\\\\"
  else if c = '\n' then "\\n"
  else if c = '\r' then "\\r"
  else if c = '\t' then "\\t"
  else String.mk [c]

def jsonQuote (s : String) : String :=
  "\"" ++ String.join (s.data.map jsonEscapeChar) ++ "\""

mutual

def jsonStringify : JsonVal → String
  | .null => "null"
  | .bool b => if b then "true" else "false"
  | .num n => toString n
  | .str s => jsonQuote s
  | .arr l => "[" ++ jsonStringifyArr l ++ "]"
  | .obj l => "\x7b" ++ jsonStringifyObj l ++ "\x7d"

def jsonStringifyArr : List JsonVal → String
  | [] => ""
  | [x] => jsonStringify x
  | x :: y :: xs => jsonStringify x ++ "," ++ jsonStringifyArr (y :: xs)

def jsonStringifyObj : List (String × JsonVal) → String
  | [] => ""
  | [kv] => jsonQuote kv.1 ++ ":" ++ jsonStringify kv.2
  | kv :: kw :: xs => jsonQuote kv.1 ++ ":" ++ jsonStringify kv.2 ++ "," ++ jsonStringifyObj (kw :: xs)

end

def spaces (n : Nat) : String :=
  String.mk (List.replicate n ' ')

mutual

/-- `JSON.stringify(x, null, 2)`: two-space-indented serialization;
`ind` is the current indentation level in spaces. -/
def jsonStringifyP (ind : Nat) : JsonVal → String
  | .null => "null"
  | .bool b => if b then "true" else "false"
  | .num n => toString n
  | .str s => jsonQuote s
  | .arr [] => "[]"
  | .arr (x :: xs) =>
    "[\n" ++ jsonStringifyPArr (ind + 2) (x :: xs) ++ "\n" ++ spaces ind ++ "]"
  | .obj [] => "\x7b\x7d"
  | .obj (kv :: kvs) =>
    "\x7b\n" ++ jsonStringifyPObj (ind + 2) (kv :: kvs) ++ "\n" ++ spaces ind ++ "\x7d"

def jsonStringifyPArr (ind : Nat) : List JsonVal → String
  | [] => ""
  | [x] => spaces ind ++ jsonStringifyP ind x
  | x :: y :: xs =>
    spaces ind ++ jsonStringifyP ind x ++ ",\n" ++ jsonStringifyPArr ind (y :: xs)

def jsonStringifyPObj (ind : Nat) : List (String × JsonVal) → String
  | [] => ""
  | [kv] => spaces ind ++ jsonQuote kv.1 ++ ": " ++ jsonStringifyP ind kv.2
  | kv :: kw :: xs =>
    spaces ind ++ jsonQuote kv.1 ++ ": " ++ jsonStringifyP ind kv.2 ++ ",\n" ++
      jsonStringifyPObj ind (kw :: xs)

end

/-- Formatting of a response example body (`parse`, lines 697–704): values
of JavaScript type `object` — JSON objects, arrays and `null` — are
replaced by their two-space-indented serialization; strings, numbers and
booleans are carried as they are. -/
def formatBody : JsonVal → JsonVal
  | .obj l => .str (jsonStringifyP 0 (.obj l))
  | .arr l => .str (jsonStringifyP 0 (.arr l))
  | .null => .str "null"
  | v => v

/-! ## Responses and transactions (`parse`, lines 583–729) -/

/-- A Swagger response header definition (the fields the adapter reads:
`enum`, `default`, `description`). -/
structure HeaderVal where
  henum : Option (List JsonVal)
  hdefault : Option JsonVal
  description : Option String

/-- A Swagger response object (the fields the adapter reads). -/
structure ResponseVal where
  description : Option String
  examples : Option (List (String × JsonVal))
  headers : Option (List (String × HeaderVal))
  schema : Option JsonVal

/-- A message-body or schema asset attached to a request or response. -/
structure AssetM where
  classes : List String
  contentType : Option String
  body : Option JsonVal

/-- One HTTP transaction: the request's method and schema assets, and the
response's description copies, headers, assets and status-code attribute.
(Header member descriptions and source maps are not modelled.) -/
structure TransactionM where
  requestMethod : Option String
  requestAssets : List AssetM
  responseCopies : List String
  responseHeaders : Option (List (String × Option JsonVal))
  responseAssets : List AssetM
  responseStatusCode : Option String

/-- `createAssetFromJsonSchema`: a compact-serialized schema asset classed
`messageBodySchema` with content type `application/schema+json`. -/
def createSchemaAsset (schema : Option JsonVal) : AssetM :=
  { classes := ["messageBodySchema"]
    contentType := some "application/schema+json"
    body := schema.map (fun s => JsonVal.str (jsonStringify s)) }

/-- The value chosen for a declared response header member: start from
`''`, take `enum[0]` when an `enum` array is present (`undefined` when it
is empty), then override with a *truthy* `default`. -/
def headerValue (h : HeaderVal) : Option JsonVal :=
  let v1 : Option JsonVal :=
    match h.henum with
    | none => some (.str "")
    | some l => l.head?
  match h.hdefault with
  | some d => if jsTruthy d then some d else v1
  | none => v1

/-- First value stored under a key of a JSON-object association list. -/
def lookupKey (k : String) (l : List (String × JsonVal)) : Option JsonVal :=
  (l.find? (fun kv => kv.1 = k)).map (fun kv => kv.2)

/-- Build one transaction for a `(statusCode, contentType, responseBody)`
triple (`parse`, lines 617–728).  `responseBody = none` is the `undefined`
body of the synthesized single example. -/
def buildTransactionFor (method statusCode : String) (rv : ResponseVal)
    (bodyParams : List ParameterM) (contentType : String)
    (responseBody : Option JsonVal) : TransactionM :=
  let requestMethod := if method ≠ "" then some (toUpperStr method) else none
  let copies :=
    match rv.description with
    | some d => if d ≠ "" then [d] else []
    | none => []
  let ctHeaders : List (String × Option JsonVal) :=
    if contentType ≠ "" then [("Content-Type", some (.str contentType))] else []
  let declHeaders : List (String × Option JsonVal) :=
    match rv.headers with
    | none => []
    | some hs => hs.map (fun kv => (kv.1, headerValue kv.2))
  let responseHeaders : Option (List (String × Option JsonVal)) :=
    if contentType ≠ "" ∨ rv.headers.isSome then some (ctHeaders ++ declHeaders)
    else none
  let requestAssets := bodyParams.map (fun p => createSchemaAsset p.schema)
  let bodyAssets : List AssetM :=
    match responseBody with
    | none => []
    | some rb => [{ classes := ["messageBody"], contentType := none,
                    body := some (formatBody rb) }]
  let schemaJs : Option JsonVal :=
    if jsTruthyOpt rv.schema then rv.schema
    else
      match rv.examples with
      | none => none
      | some exs => lookupKey "schema" exs
  let schemaAssets : List AssetM :=
    match schemaJs with
    | some s => if jsTruthy s then [createSchemaAsset (some s)] else []
    | none => []
  { requestMethod := requestMethod
    requestAssets := requestAssets
    responseCopies := copies
    responseHeaders := responseHeaders
    responseAssets := bodyAssets ++ schemaAssets
    responseStatusCode := if statusCode ≠ "null" then some statusCode else none }

/-- The example iteration list for one response: the declared `examples`
object when present (its values defined), else the synthesized
`{'': undefined}` single entry; in both cases a literal `schema` key is
omitted (`_.omit(examples, 'schema')`). -/
def examplesList (rv : ResponseVal) : List (String × Option JsonVal) :=
  let base : List (String × Option JsonVal) :=
    match rv.examples with
    | none => [("", none)]
    | some exs => exs.map (fun kv => (kv.1, some kv.2))
  base.filter (fun kv => kv.1 ≠ "schema")

/-- All transactions generated for one remaining status code. -/
def transactionsForStatus (method statusCode : String) (rv : ResponseVal)
    (bodyParams : List ParameterM) : List TransactionM :=
  (examplesList rv).map (fun kv => buildTransactionFor method statusCode rv bodyParams kv.1 kv.2)

/-- The bare transaction created when an operation has no relevant
responses and no body parameters (`createTransaction(minim, transition,
method)` with nothing further attached). -/
def bareTransaction (method : String) : TransactionM :=
  { requestMethod := if method ≠ "" then some (toUpperStr method) else none
    requestAssets := []
    responseCopies := []
    responseHeaders := none
    responseAssets := []
    responseStatusCode := none }

/-- A response object with no fields (`{}`). -/
def emptyResponseVal : ResponseVal := ⟨none, none, none, none⟩

/-- Swagger extension test (`isExtension`): the key starts with `x-`
(`key.indexOf('x-') === 0`). -/
def isExtensionKey (k : String) : Bool :=
  match k.data with
  | 'x' :: '-' :: _ => true
  | _ => false

/-- `_.chain(methodValue.responses).omit('default').omit(isExtension)`. -/
def relevantResponses (responses : Option (List (String × ResponseVal))) :
    List (String × ResponseVal) :=
  (responses.getD []).filter (fun kv => kv.1 != "default" && !(isExtensionKey kv.1))

/-- The operation's parameters with `in === 'body'`. -/
def bodyParametersOf (params : List ParameterM) : List ParameterM :=
  params.filter (fun p => p.paramIn == some "body")

/-- The transaction fan-out for one HTTP method (`parse`, lines 583–729):
when the relevant response map is empty, either synthesize the status entry
`null: {}` (body parameters present) or create one bare transaction;
otherwise build the transactions of every remaining status code. -/
def processMethodResponses (method : String)
    (responses : Option (List (String × ResponseVal)))
    (bodyParams : List ParameterM) : List TransactionM :=
  let relevant := relevantResponses responses
  if relevant.isEmpty then
    if bodyParams.length != 0 then
      transactionsForStatus method "null" emptyResponseVal bodyParams
    else
      [bareTransaction method]
  else
    (relevant.map (fun kv => transactionsForStatus method kv.1 kv.2 bodyParams)).flatten

/-! ## Host and schemes (`parse`, lines 383–405) -/

/-- The host/schemes step: when `host` is truthy, store a `HOST` metadata
member; when `schemes` is also present, prefix `schemes[0] + '://'` (an
empty `schemes` array yields the JavaScript string `"undefined"`) and
warn about dropped schemes when more than one is declared. -/
def processHost (host : Option String) (schemes : Option (List String)) :
    List Diag × Option (String × String) :=
  match host with
  | none => ([], none)
  | some h =>
    if h = "" then ([], none)
    else
      match schemes with
      | none => ([], some ("HOST", h))
      | some ss =>
        let diags :=
          if ss.length > 1 then
            [⟨DATA_LOST, some "schemes",
              "Only the first scheme will be used to create a hostname"⟩]
          else ([] : List Diag)
        let first := match ss with | [] => "undefined" | s :: _ => s
        (diags, some ("HOST", first ++ "://" ++ h))

/-! ## Tag-based resource grouping (`useResourceGroups` and `parse`)

`useResourceGroups` iterates every path and every value of the path object
with underscore's `_.each`, whose iteratee return value is ignored: the
`return false` statements on the too-many-tags and non-matching-tag
branches only end the current callback invocation (a `continue`), they do
not abort the iteration or disable grouping. -/

/-- A path-object value as seen by `useResourceGroups`: only its optional
`tags` array matters (non-operation values read `tags` as `undefined`). -/
structure OpM where
  tags : Option (List String)
deriving Repr, DecidableEq

/-- A path object: its values in key order, plus its (mutable)
`x-group-name` key. -/
structure PathM where
  ops : List (String × OpM)
  xGroupName : Option String
deriving Repr, DecidableEq

structure InfoM where
  title : Option String
  description : Option String
deriving Repr, DecidableEq

/-- The fields of the loaded Swagger document the grouping and
default-insertion steps touch. -/
structure DocM where
  info : Option InfoM
  paths : Option (List (String × PathM))
deriving Repr, DecidableEq

/-- One step of the inner `_.each(path, operation => ...)` loop of
`useResourceGroups`.  An operation with more than one tag, or with a tag
different from the one already chosen, leaves `tag` unchanged (its
`return false` is a no-op under `_.each`). -/
def tagStep (tag : Option String) (kv : String × OpM) : Option String :=
  match kv.2.tags with
  | none => tag
  | some [] => tag
  | some (t :: rest) =>
    if (t :: rest).length > 1 then tag
    else
      match tag with
      | none => some t
      | some _ => tag

/-- The inner loop of `useResourceGroups`: fold the `tag` variable over the
path's values. -/
def pathTag (p : PathM) : Option String :=
  p.ops.foldl tagStep none

/-- The mutation performed by `useResourceGroups`: every path whose
resolved tag is truthy gets `x-group-name` set to it. -/
def applyGroupNames (paths : List (String × PathM)) : List (String × PathM) :=
  paths.map (fun kv =>
    match pathTag kv.2 with
    | some t => if t ≠ "" then (kv.1, { kv.2 with xGroupName := some t }) else kv
    | none => kv)

/-- The `tags` array accumulated by `useResourceGroups` (one push per path
with a truthy resolved tag). -/
def groupTags (paths : List (String × PathM)) : List String :=
  paths.filterMap (fun kv =>
    match pathTag kv.2 with
    | some t => if t ≠ "" then some t else none
    | none => none)

/-- The return value of `useResourceGroups`: `tags.length > 0`. -/
def useResourceGroupsB (paths : List (String × PathM)) : Bool :=
  (groupTags paths).length > 0

/-- The grouping state of the path loop of `parse` (lines 422–470):
`current` is the category the `group` variable points at (`none` is the
root api Category), `created` the resource-group categories created so far
(by title, in creation order), `assigned` records for each processed path
which category its Resource was appended to. -/
structure GroupState where
  current : Option String
  created : List String
  assigned : List (String × Option String)
deriving Repr, DecidableEq

/-- The path loop of `parse` restricted to grouping: extension-keyed paths
are omitted; when grouping is on and the path carries a truthy
`x-group-name`, find-or-create that resource-group category and point
`group` at it (the `group` variable is *not* reset for paths without a
group name); append the Resource to the current target. -/
def groupStep (useGroups : Bool) (st : GroupState) (kv : String × PathM) : GroupState :=
  let st1 :=
    if useGroups then
      match kv.2.xGroupName with
      | some g =>
        if g ≠ "" then
          { st with
            current := some g
            created := if st.created.contains g then st.created else st.created ++ [g] }
        else st
      | none => st
    else st
  { st1 with assigned := st1.assigned ++ [(kv.1, st1.current)] }

def assignGroups (useGroups : Bool) (paths : List (String × PathM)) : GroupState :=
  (paths.filter (fun kv => !(isExtensionKey kv.1))).foldl (groupStep useGroups) ⟨none, [], []⟩

/-- The whole grouping pipeline of `parse`: `useResourceGroups(swagger)`
labels the paths and returns the flag, then the path loop distributes the
Resources. -/
def buildGrouping (paths : List (String × PathM)) : GroupState :=
  assignGroups (useResourceGroupsB paths) (applyGroupNames paths)

/-- The in-place mutations `parse` applies to an object-typed `source`
before and during validation: insert missing `info` and `paths` keys
(lines 314–321), then let `useResourceGroups` write `x-group-name` keys
into the path objects (the external validator dereferences the document in
place, so `parser.api` is the caller's object graph). -/
def parseInputMutation (doc : DocM) : DocM :=
  let doc1 := if doc.info.isNone then { doc with info := some ⟨none, none⟩ } else doc
  let doc2 := if doc1.paths.isNone then { doc1 with paths := some [] } else doc1
  { doc2 with paths := some (applyGroupNames (doc2.paths.getD [])) }

/-- The per-path tag the grouping pass actually resolves, stated directly:
the tag of the first operation that carries exactly one tag (operations
with zero or several tags, and later disagreeing operations, are passed
over). -/
def firstSingleTag : List (String × OpM) → Option String
  | [] => none
  | kv :: rest =>
    match kv.2.tags with
    | some [t] => some t
    | _ => firstSingleTag rest

/-! ## Concrete documents and ASTs used by counterexamples and witnesses -/

/-- AST of `{"info":{"title":"X"}}`: the `info` key spans 1–7, the `title`
key 9–16, the value `"X"` 17–20. -/
def astInfo : YNode :=
  .map [(.scalar "info" 1 7, .map [(.scalar "title" 9 16, .scalar "X" 17 20)] 8 21)] 0 22

/-- An eleven-element sequence; element `i` spans `100+2*i`–`101+2*i`. -/
def seq11 : List YNode :=
  [.scalar "e0" 100 101, .scalar "e1" 102 103, .scalar "e2" 104 105,
   .scalar "e3" 106 107, .scalar "e4" 108 109, .scalar "e5" 110 111,
   .scalar "e6" 112 113, .scalar "e7" 114 115, .scalar "e8" 116 117,
   .scalar "e9" 118 119, .scalar "e10" 120 121]

/-- AST of a document whose key `a` holds the eleven-element sequence. -/
def astSeq : YNode :=
  .map [(.scalar "a" 1 2, .seq seq11 5 900)] 0 1000

/-- AST of `{"a": {"$ref": "#/d/X"}, "d": {"X": {"items": ["s0", "s1"]}}}`:
the `items` key spans 26–31, its sequence value 32–39, element 0 spans
33–35 and element 1 spans 36–38. -/
def astRef : YNode :=
  .map [(.scalar "a" 1 2, .map [(.scalar "$ref" 5 9, .scalar "#/d/X" 10 15)] 4 16),
        (.scalar "d" 20 21,
         .map [(.scalar "X" 23 24,
                .map [(.scalar "items" 26 31,
                       .seq [.scalar "s0" 33 35, .scalar "s1" 36 38] 32 39)] 25 40)] 22 41)] 0 50

/-- Two paths: the operation on `/p1` carries two tags, the operation on
`/p2` carries the single tag `c`. -/
def multiTagPaths : List (String × PathM) :=
  [("/p1", ⟨[("get", ⟨some ["a", "b"]⟩)], none⟩),
   ("/p2", ⟨[("get", ⟨some ["c"]⟩)], none⟩)]

/-- A parameter with a present-but-empty description and a present-but-
falsy default value (`0`). -/
def paramFalsyDefault : ParameterM :=
  ⟨"p", some "integer", some "", true, some (.num 0), some "query", none⟩

/-- A body parameter carrying a schema. -/
def bodyParamExample : ParameterM :=
  ⟨"payload", none, none, true, none, some "body", some (.obj [("type", .str "object")])⟩

/-- A response declaring two example content types plus a literal `schema`
key inside `examples`. -/
def responseTwoExamples : ResponseVal :=
  ⟨some "ok",
   some [("application/json", .str "x"), ("schema", .obj []), ("text/plain", .str "y")],
   none, none⟩

/-- A validation error detail list: one detail with two nested inner
sub-errors, and a second detail with none. -/
def errDetails : List ErrItem :=
  [.mk (some "paths") "bad path" (some [.mk none "inner1" none, .mk none "inner2" none]),
   .mk none "bad info" none]

/-! # Helper lemmas -/

theorem getPosition_eq_aux (ast : YNode) (fuel : Nat) (l : List String) :
    getPosition ast l fuel = getPosAux ast fuel (JVal.node ast) l.head? l.tail := by
  cases l <;> rfl

theorem takeWhile_all_append {p : Char → Bool} (l1 : List Char) (x : Char) (l2 : List Char)
    (h1 : ∀ a ∈ l1, p a = true) (h2 : p x = false) :
    (l1 ++ x :: l2).takeWhile p = l1 ∧ (l1 ++ x :: l2).dropWhile p = x :: l2 := by
  induction l1 with
  | nil => simp [List.takeWhile_cons, List.dropWhile_cons, h2]
  | cons a l ih =>
    have ha : p a = true := h1 a (by simp)
    have ih' := ih (fun b hb => h1 b (by simp [hb]))
    simp [List.takeWhile_cons, List.dropWhile_cons, ha, ih'.1, ih'.2]

theorem parseIndexSuffix_digits (pre revds : List Char) (d : Char)
    (hd : d.isDigit = true) (hds : ∀ c ∈ revds, c.isDigit = true) :
    parseIndexSuffix (String.mk (pre ++ '[' :: ((d :: revds).reverse ++ [']']))) =
      (String.mk pre, some (d.toNat - '0'.toNat)) := by
  have hall : ∀ c ∈ d :: revds, Char.isDigit c = true := by
    intro c hc
    rcases List.mem_cons.mp hc with h | h
    · simpa [h] using hd
    · exact hds c h
  have hbr : Char.isDigit '[' = false := by decide
  have htw := takeWhile_all_append (p := Char.isDigit) (d :: revds) '[' pre.reverse hall hbr
  have hrev : (pre ++ '[' :: ((d :: revds).reverse ++ [']'])).reverse
      = ']' :: ((d :: revds) ++ '[' :: pre.reverse) := by
    simp [List.reverse_append]
  unfold parseIndexSuffix
  rw [hrev]
  simp only [htw.1, htw.2]
  simp

theorem scanPairs_miss_of (nm : String) (pairs : List (YNode × YNode))
    (h : ∀ kv ∈ pairs, ∀ s a b, kv.1 = YNode.scalar s a b →
      s ≠ nm ∧ (s = "$ref" → ∀ t c d2, kv.2 = YNode.scalar t c d2 →
        firstCharIs '#' t = false)) :
    scanPairs nm pairs = .miss := by
  induction pairs with
  | nil => rfl
  | cons kv rest ih =>
    obtain ⟨k, v⟩ := kv
    have ih' : scanPairs nm rest = .miss := ih (fun kv hkv => h kv (by simp [hkv]))
    cases k with
    | scalar s a b =>
      have hs := h ⟨YNode.scalar s a b, v⟩ (by simp) s a b rfl
      by_cases href : s = "$ref"
      · subst href
        cases v with
        | scalar t c d2 =>
          have hext := hs.2 rfl t c d2 rfl
          simp [scanPairs, hs.1, hext, ih']
        | seq items c d2 => simp [scanPairs, hs.1, ih']
        | map ps c d2 => simp [scanPairs, hs.1, ih']
      · simp [scanPairs, hs.1, href, ih']
    | seq items a b => simpa [scanPairs] using ih'
    | map ps a b => simpa [scanPairs] using ih'

/-! # Claim theorems -/

/-- **C9** (counterexample): at the concrete AST of `{"info":{"title":"X"}}`
the resolver called with an empty path (empty segment list, or the empty
string, which splits to `['']`) returns the record
`{start: undefined, end: undefined}` — a truthy object, not the `null`
not-found value the claim asserts. -/
theorem getPosition_empty_path_counterexample :
    getPosition astInfo [] 10 = PosResult.obj none none ∧
    getPositionStr astInfo "" 10 = PosResult.obj none none ∧
    getPosition astInfo [] 10 ≠ PosResult.nullRes := by
  exact ⟨rfl, rfl, by decide⟩

/-- **C9** (amended): for every AST and any fuel, the resolver called with
an empty path returns the `{start, end}` record with both offsets
`undefined`: it yields no byte range, but it does not return the `null`
failure value either. -/
theorem getPosition_empty_path (ast : YNode) (fuel : Nat) :
    getPosition ast [] fuel = PosResult.obj none none ∧
    getPositionStr ast "" fuel = PosResult.obj none none ∧
    PosResult.obj (none : Option Nat) none ≠ PosResult.nullRes := by
  refine ⟨by simp [getPosition, getPosAux], ?_, by decide⟩
  have h : splitOnChar '.' "" = [""] := rfl
  simp only [getPositionStr, h, getPosition]
  cases fuel <;> simp [getPosAux]

/-- **C2** (counterexample): the final segment `a[10]` against a sequence
of eleven elements resolves to the span of element **0** (offsets 100–101),
not the span of element 10 (offsets 120–121): the regex
`/(.*)\[([0-9])+\]$/` captures only the last digit of the index. -/
theorem getPosition_index_counterexample :
    getPosition astSeq ["a[10]"] 5 = PosResult.obj (some 100) (some 101) ∧
    seq11.get? 10 = some (YNode.scalar "e10" 120 121) ∧
    getPosition astSeq ["a[10]"] 5 ≠ PosResult.obj (some 120) (some 121) := by
  exact ⟨rfl, rfl, by decide⟩

/-- **C2** (amended): a bracketed index suffix parses to its **last** digit
(so only single-digit indices select the claimed Nth element, zero-based);
when the final segment is indexed the resolved range is the exact span of
the element at the parsed index, and when it is not indexed the range runs
from the matching key's start offset to that key's value's end offset. -/
theorem getPosition_last_segment_spec (ast : YNode) (fuel : Nat)
    (pairs : List (YNode × YNode)) (sp ep : Nat) (p0 nm : String)
    (hne : p0 ≠ "") :
    (∀ (pre revds : List Char) (d : Char),
      d.isDigit = true → (∀ c ∈ revds, c.isDigit = true) →
      parseIndexSuffix (String.mk (pre ++ '[' :: ((d :: revds).reverse ++ [']']))) =
        (String.mk pre, some (d.toNat - '0'.toNat))) ∧
    (∀ k v i el, parseIndexSuffix p0 = (nm, some i) →
      scanPairs nm pairs = ScanHit.keyHit k v → jindex v i = some (JVal.node el) →
      getPosAux ast (fuel + 1) (JVal.node (YNode.map pairs sp ep)) (some p0) [] =
        PosResult.obj (some el.startPtr) (some el.endPtr)) ∧
    (∀ k v, parseIndexSuffix p0 = (nm, none) →
      scanPairs nm pairs = ScanHit.keyHit k v →
      getPosAux ast (fuel + 1) (JVal.node (YNode.map pairs sp ep)) (some p0) [] =
        PosResult.obj (some k.startPtr) (some v.endPtr)) := by
  refine ⟨fun pre revds d hd hds => parseIndexSuffix_digits pre revds d hd hds, ?_, ?_⟩
  · intro k v i el hpi hscan hj
    simp [getPosAux, hne, hpi, hscan, hj]
  · intro k v hpi hscan
    simp [getPosAux, hne, hpi, hscan]

/-- Witness for the amended C2 theorem: the suffix `[31]` parses to index 1
(the last digit); the final segment `a[3]` resolves to element 3's span
(106–107); the unindexed final segment `a` resolves from the key's start
(1) to the sequence value's end (900). -/
theorem getPosition_last_segment_spec_witness :
    parseIndexSuffix (String.mk (['a'] ++ '[' :: (('1' :: ['3']).reverse ++ [']']))) =
      (String.mk ['a'], some ('1'.toNat - '0'.toNat)) ∧
    getPosAux astSeq 5
      (JVal.node (YNode.map [(YNode.scalar "a" 1 2, YNode.seq seq11 5 900)] 0 1000))
      (some "a[3]") [] = PosResult.obj (some 106) (some 107) ∧
    getPosAux astSeq 5
      (JVal.node (YNode.map [(YNode.scalar "a" 1 2, YNode.seq seq11 5 900)] 0 1000))
      (some "a") [] = PosResult.obj (some 1) (some 900) := by
  refine ⟨?_, ?_, ?_⟩
  · exact (getPosition_last_segment_spec astSeq 4 [] 0 0 "x" "x" (by decide)).1
      ['a'] ['3'] '1' (by decide) (by intro c hc; simp at hc; subst hc; decide)
  · exact (getPosition_last_segment_spec astSeq 4
      [(YNode.scalar "a" 1 2, YNode.seq seq11 5 900)] 0 1000 "a[3]" "a" (by decide)).2.1
      (YNode.scalar "a" 1 2) (YNode.seq seq11 5 900) 3 (YNode.scalar "e3" 106 107)
      rfl rfl rfl
  · exact (getPosition_last_segment_spec astSeq 4
      [(YNode.scalar "a" 1 2, YNode.seq seq11 5 900)] 0 1000 "a" "a" (by decide)).2.2
      (YNode.scalar "a" 1 2) (YNode.seq seq11 5 900) rfl rfl

/-- **C3** (counterexample): crossing the internal reference under `a` with
the indexed segment `items[1]` is **not** range-equal to the equivalent
direct path `d.X.items[1]`: the restart pushes the stripped segment
(`items`), dropping the index suffix, so the crossed resolution returns the
unindexed key-to-value span 26–39 while the direct path returns element 1's
span 36–38. -/
theorem getPosition_ref_transparency_counterexample :
    getPosition astRef ["a", "items[1]"] 10 = PosResult.obj (some 26) (some 39) ∧
    getPosition astRef ["d", "X", "items[1]"] 10 = PosResult.obj (some 36) (some 38) ∧
    getPosition astRef ["a", "items[1]"] 10 ≠
      getPosition astRef ["d", "X", "items[1]"] 10 := by
  exact ⟨rfl, rfl, by decide⟩

/-- **C3** (amended): when the child scan hits an internal reference (no
child key matches the stripped current segment first), resolution restarts
from the document root on the referenced path's segments followed by the
**stripped** current segment — any index suffix is dropped, so range
equality with the equivalent direct path holds exactly for unindexed
crossing segments, for which the restarted state is literally the direct
path's resolution; when the scan misses — in particular when every
reference child is external (its value does not begin with `#`) and no key
matches — the resolver returns the `null` not-found value without raising. -/
theorem getPosition_internal_ref_restart (ast : YNode) (fuel : Nat)
    (pairs : List (YNode × YNode)) (sp ep : Nat) (p0 nm : String) (idx : Option Nat)
    (pieces : List String) (rv : String) (hne : p0 ≠ "") :
    (parseIndexSuffix p0 = (nm, idx) → scanPairs nm pairs = ScanHit.refHit rv →
      getPosAux ast (fuel + 1) (JVal.node (YNode.map pairs sp ep)) (some p0) pieces =
        getPosition ast (refSegments rv ++ nm :: pieces) fuel) ∧
    (scanPairs (parseIndexSuffix p0).1 pairs = ScanHit.miss →
      getPosAux ast (fuel + 1) (JVal.node (YNode.map pairs sp ep)) (some p0) pieces =
        PosResult.nullRes) ∧
    (∀ (pairs2 : List (YNode × YNode)),
      (∀ kv ∈ pairs2, ∀ s a b, kv.1 = YNode.scalar s a b →
        s ≠ nm ∧ (s = "$ref" → ∀ t c d2, kv.2 = YNode.scalar t c d2 →
          firstCharIs '#' t = false)) →
      scanPairs nm pairs2 = ScanHit.miss) := by
  refine ⟨?_, ?_, scanPairs_miss_of nm⟩
  · intro hpi hscan
    rw [getPosition_eq_aux]
    simp [getPosAux, hne, hpi, hscan]
  · intro hscan
    simp [getPosAux, hne, hscan]

/-- Witness for the amended C3 theorem: crossing the reference map of
`astRef` with the unindexed segment `items` equals the direct resolution of
`d.X.items`; a mapping holding only an external reference resolves to
`null`. -/
theorem getPosition_internal_ref_restart_witness :
    getPosAux astRef 10
      (JVal.node (YNode.map [(YNode.scalar "$ref" 5 9, YNode.scalar "#/d/X" 10 15)] 4 16))
      (some "items") [] = getPosition astRef ["d", "X", "items"] 9 ∧
    getPosAux astRef 10
      (JVal.node (YNode.map [(YNode.scalar "$ref" 5 9, YNode.scalar "other.json#/x" 10 15)] 4 16))
      (some "b") [] = PosResult.nullRes ∧
    scanPairs "b" [(YNode.scalar "$ref" 5 9, YNode.scalar "other.json#/x" 10 15)] =
      ScanHit.miss := by
  refine ⟨?_, ?_, ?_⟩
  · exact (getPosition_internal_ref_restart astRef 9
      [(YNode.scalar "$ref" 5 9, YNode.scalar "#/d/X" 10 15)] 4 16 "items" "items" none
      [] "#/d/X" (by decide)).1 rfl rfl
  · exact (getPosition_internal_ref_restart astRef 9
      [(YNode.scalar "$ref" 5 9, YNode.scalar "other.json#/x" 10 15)] 4 16 "b" "b" none
      [] "" (by decide)).2.1 rfl
  · exact (getPosition_internal_ref_restart astRef 9 [] 4 16 "b" "b" none [] ""
      (by decide)).2.2
      [(YNode.scalar "$ref" 5 9, YNode.scalar "other.json#/x" 10 15)]
      (by
        intro kv hkv s a b hk
        simp only [List.mem_singleton] at hkv
        subst hkv
        injection hk with h1 h2 h3
        subst h1
        refine ⟨by decide, fun _ t c d2 hv => ?_⟩
        injection hv with g1 g2 g3
        subst g1
        decide)

/-- **C7**: with a truthy `host`, the builder stores a metadata member
named `HOST`; without `schemes` the hostname is the bare host; with a
non-empty `schemes` array the hostname is the first scheme followed by
`://` and the host, and exactly one `DATA_LOST` diagnostic (warning, code
3) referencing `schemes` is emitted precisely when more than one scheme is
declared. -/
theorem processHost_spec (h s : String) (rest : List String) (hne : h ≠ "") :
    processHost (some h) none = ([], some ("HOST", h)) ∧
    (processHost (some h) (some (s :: rest))).2 = some ("HOST", s ++ "://" ++ h) ∧
    (rest ≠ [] →
      (processHost (some h) (some (s :: rest))).1 =
        [⟨DATA_LOST, some "schemes",
          "Only the first scheme will be used to create a hostname"⟩]) ∧
    (rest = [] → (processHost (some h) (some (s :: rest))).1 = []) ∧
    DATA_LOST.type = "warning" ∧ DATA_LOST.code = 3 := by
  refine ⟨?_, ?_, ?_, ?_, rfl, rfl⟩
  · simp [processHost, hne]
  · simp [processHost, hne]
  · intro hr
    cases rest with
    | nil => exact absurd rfl hr
    | cons a l =>
      have hlen : (s :: a :: l).length > 1 := by simp
      simp [processHost, hne, hlen]
  · intro hr
    subst hr
    simp [processHost, hne]

/-- Witness for C7: `host: api.example.com` with `schemes: [https, http]`
yields hostname `https://api.example.com` plus exactly one `DATA_LOST`
diagnostic referencing `schemes`; with a single scheme no diagnostic is
emitted. -/
theorem processHost_spec_witness :
    processHost (some "api.example.com") (some ["https", "http"]) =
      ([⟨DATA_LOST, some "schemes",
         "Only the first scheme will be used to create a hostname"⟩],
       some ("HOST", "https://api.example.com")) ∧
    processHost (some "api.example.com") (some ["https"]) =
      ([], some ("HOST", "https://api.example.com")) := by
  constructor
  · exact Prod.ext
      ((processHost_spec "api.example.com" "https" ["http"] (by decide)).2.2.1 (by simp))
      ((processHost_spec "api.example.com" "https" ["http"] (by decide)).2.1)
  · exact Prod.ext
      ((processHost_spec "api.example.com" "https" [] (by decide)).2.2.2.1 rfl)
      ((processHost_spec "api.example.com" "https" [] (by decide)).2.1)

/-- **C8** (counterexample): `paramFalsyDefault` carries a present
description (the empty string) and a present default value (`0`), yet the
classifier carries no description and attaches no default anywhere: both
are gated by JavaScript truthiness (`if (parameter.description)`,
`if (parameter.default)`), refuting "whenever a default value is present it
attaches that default to the value placeholder's attributes". -/
theorem convertParameter_truthiness_counterexample :
    paramFalsyDefault.description = some "" ∧
    paramFalsyDefault.paramDefault = some (JsonVal.num 0) ∧
    (convertParameterToElement paramFalsyDefault).description = none ∧
    (convertParameterToElement paramFalsyDefault).value.attrs = [] :=
  ⟨rfl, rfl, rfl, rfl⟩

/-- **C8** (amended): the classifier maps `string` to a string placeholder,
`integer`/`number` to a number placeholder, `boolean` to a boolean
placeholder, `array` to an array placeholder and any other (or missing)
type to a string placeholder; it carries the description only when truthy
(present and non-empty), sets `typeAttributes := ['required']` exactly when
the parameter is marked required, attaches the default to the *value*
placeholder's attributes only when the default is truthy (a default of
`false`, `0`, `''` or `null` is dropped), and never attaches a default to
the member element itself; it is a pure function with no diagnostic
output. -/
theorem convertParameterToElement_spec (p : ParameterM) :
    ((convertParameterToElement { p with type := some "string" }).value.kind
        = ElemKind.stringE ∧
     (convertParameterToElement { p with type := some "integer" }).value.kind
        = ElemKind.numberE ∧
     (convertParameterToElement { p with type := some "number" }).value.kind
        = ElemKind.numberE ∧
     (convertParameterToElement { p with type := some "boolean" }).value.kind
        = ElemKind.booleanE ∧
     (convertParameterToElement { p with type := some "array" }).value.kind
        = ElemKind.arrayE ∧
     (∀ t, t ≠ "string" → t ≠ "integer" → t ≠ "number" → t ≠ "boolean" → t ≠ "array" →
       (convertParameterToElement { p with type := some t }).value.kind
          = ElemKind.stringE) ∧
     (convertParameterToElement { p with type := none }).value.kind = ElemKind.stringE) ∧
    (convertParameterToElement p).name = p.name ∧
    (convertParameterToElement p).description =
      (if strTruthy p.description then p.description else none) ∧
    (p.required = true →
      (convertParameterToElement p).attrs =
        [("typeAttributes", JsonVal.arr [JsonVal.str "required"])]) ∧
    (p.required = false → (convertParameterToElement p).attrs = []) ∧
    (∀ d, p.paramDefault = some d → jsTruthy d = true →
      (convertParameterToElement p).value.attrs = [("default", d)]) ∧
    (∀ d, p.paramDefault = some d → jsTruthy d = false →
      (convertParameterToElement p).value.attrs = []) ∧
    (p.paramDefault = none → (convertParameterToElement p).value.attrs = []) ∧
    (∀ kv ∈ (convertParameterToElement p).attrs, kv.1 ≠ "default") := by
  refine ⟨⟨rfl, rfl, rfl, rfl, rfl, ?_, rfl⟩, rfl, rfl, ?_, ?_, ?_, ?_, ?_, ?_⟩
  · intro t h1 h2 h3 h4 h5
    simp [convertParameterToElement, h1, h2, h3, h4, h5]
  · intro h
    simp [convertParameterToElement, h]
  · intro h
    simp [convertParameterToElement, h]
  · intro d hd ht
    simp [convertParameterToElement, hd, ht]
  · intro d hd ht
    simp [convertParameterToElement, hd, ht]
  · intro hd
    simp [convertParameterToElement, hd]
  · intro kv hkv
    by_cases hr : p.required
    · simp [convertParameterToElement, hr] at hkv
      subst hkv
      decide
    · simp [convertParameterToElement, hr] at hkv

/-- Witness for the amended C8 theorem at concrete parameters: the boolean
type maps to a boolean placeholder; a truthy default (`5`) is attached to
the value placeholder; the required flag produces `typeAttributes`. -/
theorem convertParameterToElement_spec_witness :
    (convertParameterToElement { paramFalsyDefault with type := some "boolean" }).value.kind
      = ElemKind.booleanE ∧
    (convertParameterToElement
        { paramFalsyDefault with paramDefault := some (JsonVal.num 5) }).value.attrs
      = [("default", JsonVal.num 5)] ∧
    (convertParameterToElement paramFalsyDefault).attrs
      = [("typeAttributes", JsonVal.arr [JsonVal.str "required"])] := by
  refine ⟨?_, ?_, ?_⟩
  · exact (convertParameterToElement_spec paramFalsyDefault).1.2.2.2.1
  · exact (convertParameterToElement_spec
      { paramFalsyDefault with paramDefault := some (JsonVal.num 5) }).2.2.2.2.2.1
      (JsonVal.num 5) rfl rfl
  · exact (convertParameterToElement_spec paramFalsyDefault).2.2.2.1 rfl

theorem buildTransaction_noBody_assets (method statusCode : String) (rv : ResponseVal)
    (bodyParams : List ParameterM) (ct : String) (a : AssetM)
    (ha : a ∈ (buildTransactionFor method statusCode rv bodyParams ct none).responseAssets) :
    a.classes = ["messageBodySchema"] := by
  simp only [buildTransactionFor, List.nil_append] at ha
  split at ha
  · split at ha
    · simp at ha
      subst ha
      rfl
    · simp at ha
  · simp at ha

/-- **C5**: for an operation whose response map is empty after dropping the
`default` key and extension keys: with body parameters present, exactly one
transaction with the synthetic `null` status entry is created, its response
carries no status-code attribute, and its request carries the uppercased
method and the body-parameter schema assets; otherwise exactly one bare
transaction is created whose request carries the uppercased method and
whose response has no content — either way at least one request/response
pair is produced. -/
theorem processMethodResponses_empty (method : String)
    (responses : Option (List (String × ResponseVal))) (bodyParams : List ParameterM)
    (hrel : relevantResponses responses = []) (hm : method ≠ "") :
    (bodyParams ≠ [] →
      processMethodResponses method responses bodyParams =
        [buildTransactionFor method "null" emptyResponseVal bodyParams "" none] ∧
      (buildTransactionFor method "null" emptyResponseVal bodyParams "" none).responseStatusCode
        = none ∧
      (buildTransactionFor method "null" emptyResponseVal bodyParams "" none).requestMethod
        = some (toUpperStr method) ∧
      (buildTransactionFor method "null" emptyResponseVal bodyParams "" none).requestAssets
        = bodyParams.map (fun p => createSchemaAsset p.schema)) ∧
    (bodyParams = [] →
      processMethodResponses method responses bodyParams = [bareTransaction method] ∧
      (bareTransaction method).requestMethod = some (toUpperStr method) ∧
      (bareTransaction method).responseAssets = [] ∧
      (bareTransaction method).responseCopies = [] ∧
      (bareTransaction method).responseStatusCode = none) := by
  constructor
  · intro hb
    have hb' : (bodyParams.length != 0) = true := by
      cases bodyParams with
      | nil => exact absurd rfl hb
      | cons x xs => simp
    refine ⟨?_, rfl, ?_, rfl⟩
    · simp [processMethodResponses, hrel, hb', transactionsForStatus, examplesList,
        emptyResponseVal]
    · simp [buildTransactionFor, hm]
  · intro hb
    subst hb
    refine ⟨?_, ?_, rfl, rfl, rfl⟩
    · simp [processMethodResponses, hrel]
    · simp [bareTransaction, hm]

/-- Witness for C5 at concrete inputs: no declared responses with one body
parameter yields exactly the synthetic transaction (status-code attribute
absent); with no parameters it yields exactly the bare `GET`
transaction. -/
theorem processMethodResponses_empty_witness :
    processMethodResponses "get" none [bodyParamExample] =
      [buildTransactionFor "get" "null" emptyResponseVal [bodyParamExample] "" none] ∧
    (buildTransactionFor "get" "null" emptyResponseVal [bodyParamExample] "" none).responseStatusCode
      = none ∧
    processMethodResponses "get" none [] = [bareTransaction "get"] ∧
    (bareTransaction "get").requestMethod = some "GET" := by
  have h1 := (processMethodResponses_empty "get" none [bodyParamExample] rfl (by decide)).1
    (by simp)
  have h2 := (processMethodResponses_empty "get" none [] rfl (by decide)).2 rfl
  exact ⟨h1.1, h1.2.1, h2.1, h2.2.1⟩

/-- **C6**: for each remaining status code, the builder creates one
transaction per content-type key of the declared `examples` object, always
skipping a literal `schema` key; a response with no `examples` object
yields exactly one transaction with an undefined body (no `messageBody`
asset); every transaction built from a present (non-empty) content type
carries a `Content-Type` response header member set to that content type
and a `messageBody` asset holding the (formatted) example body; and every
entry of the example list yields its transaction in the output. -/
theorem transactionsForStatus_spec (method statusCode : String) (rv : ResponseVal)
    (bodyParams : List ParameterM) :
    (rv.examples = none →
      transactionsForStatus method statusCode rv bodyParams =
        [buildTransactionFor method statusCode rv bodyParams "" none] ∧
      ∀ a ∈ (buildTransactionFor method statusCode rv bodyParams "" none).responseAssets,
        a.classes ≠ ["messageBody"]) ∧
    (∀ exs, rv.examples = some exs →
      (transactionsForStatus method statusCode rv bodyParams).length =
        (exs.filter (fun kv => kv.1 ≠ "schema")).length) ∧
    (∀ ct body, ct ≠ "" →
      (∃ hs, (buildTransactionFor method statusCode rv bodyParams ct (some body)).responseHeaders
          = some hs ∧ ("Content-Type", some (JsonVal.str ct)) ∈ hs) ∧
      (AssetM.mk ["messageBody"] none (some (formatBody body))) ∈
        (buildTransactionFor method statusCode rv bodyParams ct (some body)).responseAssets) ∧
    (∀ ct body, (ct, body) ∈ examplesList rv →
      buildTransactionFor method statusCode rv bodyParams ct body ∈
        transactionsForStatus method statusCode rv bodyParams) := by
  refine ⟨?_, ?_, ?_, ?_⟩
  · intro h
    constructor
    · simp [transactionsForStatus, examplesList, h]
    · intro a ha
      rw [buildTransaction_noBody_assets method statusCode rv bodyParams "" a ha]
      decide
  · intro exs h
    have hcomp : ((fun kv : String × Option JsonVal => !decide (kv.1 = "schema")) ∘
        (fun kv : String × JsonVal => (kv.1, some kv.2))) =
        (fun kv : String × JsonVal => !decide (kv.1 = "schema")) :=
      funext (fun kv => rfl)
    simp [transactionsForStatus, examplesList, h, List.filter_map, hcomp]
  · intro ct body hct
    constructor
    · simp only [buildTransactionFor]
      rw [if_pos (Or.inl hct)]
      refine ⟨_, rfl, ?_⟩
      simp [hct]
    · simp [buildTransactionFor]
  · intro ct body h
    exact List.mem_map_of_mem _ h

/-- Witness for C6 at concrete inputs: `responseTwoExamples` declares two
content types plus a literal `schema` key and yields exactly two
transactions; its `application/json` transaction carries the matching
`Content-Type` header member; a response without `examples` yields exactly
one transaction. -/
theorem transactionsForStatus_spec_witness :
    (transactionsForStatus "get" "200" responseTwoExamples []).length = 2 ∧
    (∃ hs, (buildTransactionFor "get" "200" responseTwoExamples [] "application/json"
        (some (JsonVal.str "x"))).responseHeaders = some hs ∧
      ("Content-Type", some (JsonVal.str "application/json")) ∈ hs) ∧
    transactionsForStatus "get" "200" (ResponseVal.mk none none none none) [] =
      [buildTransactionFor "get" "200" (ResponseVal.mk none none none none) [] "" none] := by
  refine ⟨?_, ?_, ?_⟩
  · rw [(transactionsForStatus_spec "get" "200" responseTwoExamples []).2.1 _ rfl]
    decide
  · exact ((transactionsForStatus_spec "get" "200" responseTwoExamples []).2.2.1
      "application/json" (JsonVal.str "x") (by decide)).1
  · exact ((transactionsForStatus_spec "get" "200" ⟨none, none, none, none⟩ []).1 rfl).1

theorem tagStep_some (t : String) (kv : String × OpM) : tagStep (some t) kv = some t := by
  rcases kv with ⟨k, op⟩
  rcases op with ⟨tags⟩
  rcases tags with _ | tl
  · rfl
  · rcases tl with _ | ⟨a, rest⟩
    · rfl
    · by_cases h : (a :: rest).length > 1 <;> simp [tagStep, h]

theorem foldl_tagStep_some (t : String) (l : List (String × OpM)) :
    l.foldl tagStep (some t) = some t := by
  induction l with
  | nil => rfl
  | cons kv rest ih => rw [List.foldl_cons, tagStep_some, ih]

theorem foldl_tagStep_none (l : List (String × OpM)) :
    l.foldl tagStep none = firstSingleTag l := by
  induction l with
  | nil => rfl
  | cons kv rest ih =>
    rw [List.foldl_cons]
    rcases kv with ⟨k, op⟩
    rcases op with ⟨tags⟩
    rcases tags with _ | tl
    · simpa [tagStep, firstSingleTag] using ih
    · rcases tl with _ | ⟨a, rest2⟩
      · simpa [tagStep, firstSingleTag] using ih
      · rcases rest2 with _ | ⟨b, rest3⟩
        · simp [tagStep, firstSingleTag, foldl_tagStep_some]
        · simpa [tagStep, firstSingleTag] using ih

theorem groupTags_eq_nil_iff (paths : List (String × PathM)) :
    groupTags paths = [] ↔ ∀ kv ∈ paths, strTruthy (pathTag kv.2) = false := by
  unfold groupTags
  rw [List.filterMap_eq_nil_iff]
  constructor
  · intro h kv hkv
    have := h kv hkv
    rcases ht : pathTag kv.2 with _ | t
    · simp [strTruthy]
    · rw [ht] at this
      by_cases he : t = ""
      · subst he
        simp [strTruthy]
      · simp [he] at this
  · intro h kv hkv
    have := h kv hkv
    rcases ht : pathTag kv.2 with _ | t
    · simp
    · rw [ht] at this
      simp [strTruthy] at this
      simp [this]

theorem groupStep_false (st : GroupState) (kv : String × PathM) :
    groupStep false st kv = { st with assigned := st.assigned ++ [(kv.1, st.current)] } := rfl

theorem foldl_groupStep_false (l : List (String × PathM)) (st : GroupState) :
    l.foldl (groupStep false) st =
      { st with assigned := st.assigned ++ l.map (fun kv => (kv.1, st.current)) } := by
  induction l generalizing st with
  | nil => simp
  | cons kv rest ih =>
    rw [List.foldl_cons, groupStep_false, ih]
    simp

/-- **C1** (counterexample): in `multiTagPaths` the operation on `/p1`
carries two tags, yet grouping is *not* disabled for the document: the
grouping pass still creates the resource-group Category `c` and appends
the `/p2` Resource to it, refuting "no resource-group Category is created
anywhere and every Resource is appended directly to the root api
Category". -/
theorem useResourceGroups_multiTag_counterexample :
    multiTagPaths.map (fun kv => kv.2.ops.map (fun o => o.2.tags))
      = [[some ["a", "b"]], [some ["c"]]] ∧
    useResourceGroupsB multiTagPaths = true ∧
    (buildGrouping multiTagPaths).created = ["c"] ∧
    (buildGrouping multiTagPaths).assigned = [("/p1", none), ("/p2", some "c")] ∧
    (buildGrouping multiTagPaths).created ≠ [] :=
  ⟨rfl, rfl, rfl, rfl, by decide⟩

/-- **C1** (amended): an operation with more than one tag, or a later
operation whose single tag disagrees with the one already chosen, is simply
skipped — the `return false` inside underscore's `_.each` ends only that
callback invocation — so a path's resolved tag is its first singly-tagged
operation's tag; grouping is enabled exactly when some path resolves a
truthy tag; and only when **no** path resolves a truthy tag is grouping
disabled, with every Resource appended to the root api Category and no
resource-group Category created. -/
theorem useResourceGroups_grouping_spec (p : PathM) (paths : List (String × PathM)) :
    pathTag p = firstSingleTag p.ops ∧
    (useResourceGroupsB paths = false ↔ ∀ kv ∈ paths, strTruthy (pathTag kv.2) = false) ∧
    (useResourceGroupsB paths = false →
      (buildGrouping paths).created = [] ∧
      ∀ e ∈ (buildGrouping paths).assigned, e.2 = none) := by
  have hflag : useResourceGroupsB paths = false ↔ groupTags paths = [] := by
    unfold useResourceGroupsB
    rcases groupTags paths with _ | ⟨a, l⟩ <;> simp
  refine ⟨foldl_tagStep_none p.ops, hflag.trans (groupTags_eq_nil_iff paths), ?_⟩
  intro h
  unfold buildGrouping
  rw [h, assignGroups, foldl_groupStep_false]
  constructor
  · rfl
  · intro e he
    simp only [List.nil_append, List.mem_map] at he
    obtain ⟨a, ha, heq⟩ := he
    subst heq
    rfl

/-- Witness for the amended C1 theorem: the two-tag operation resolves no
tag; `multiTagPaths` still enables grouping; a document whose only
operation is untagged disables grouping and creates no group. -/
theorem useResourceGroups_grouping_spec_witness :
    pathTag ⟨[("get", ⟨some ["a", "b"]⟩)], none⟩ = none ∧
    (useResourceGroupsB multiTagPaths = false ↔
      ∀ kv ∈ multiTagPaths, strTruthy (pathTag kv.2) = false) ∧
    (buildGrouping [("/p", (⟨[("get", (⟨none⟩ : OpM))], none⟩ : PathM))]).created = [] := by
  refine ⟨?_, ?_, ?_⟩
  · exact (useResourceGroups_grouping_spec ⟨[("get", ⟨some ["a", "b"]⟩)], none⟩ []).1.trans rfl
  · exact (useResourceGroups_grouping_spec ⟨[], none⟩ multiTagPaths).2.1
  · exact ((useResourceGroups_grouping_spec ⟨[], none⟩
      [("/p", (⟨[("get", (⟨none⟩ : OpM))], none⟩ : PathM))]).2.2 rfl).1

/-- **C10**: with an object `source`, `parse` mutates the caller's
document in place: missing `info` and `paths` keys are inserted before
validation, and the grouping pass writes an `x-group-name` key into every
path object that resolves a truthy tag — so the input is not in general
left unchanged by a parse invocation (final conjunct: a concrete document
that comes back different). -/
theorem parseInputMutation_spec (doc : DocM) :
    (parseInputMutation doc).info.isSome = true ∧
    (parseInputMutation doc).paths.isSome = true ∧
    (doc.info = none → (parseInputMutation doc).info = some ⟨none, none⟩) ∧
    (∀ ps, doc.paths = some ps →
      (parseInputMutation doc).paths = some (applyGroupNames ps)) ∧
    (∀ ps href p t, doc.paths = some ps → (href, p) ∈ ps → pathTag p = some t → t ≠ "" →
      (href, { p with xGroupName := some t }) ∈ applyGroupNames ps) ∧
    parseInputMutation ⟨none, none⟩ ≠ (⟨none, none⟩ : DocM) := by
  obtain ⟨inf, pths⟩ := doc
  refine ⟨?_, ?_, ?_, ?_, ?_, by decide⟩
  · cases inf <;> cases pths <;> simp [parseInputMutation]
  · cases inf <;> cases pths <;> simp [parseInputMutation]
  · intro h
    simp only at h
    subst h
    cases pths <;> simp [parseInputMutation]
  · intro ps hps
    simp only at hps
    subst hps
    cases inf <;> simp [parseInputMutation]
  · intro ps href p t hps hmem htag hne
    unfold applyGroupNames
    refine List.mem_map.mpr ⟨(href, p), hmem, ?_⟩
    simp [htag, hne]

/-- Witness for C10: the document `{paths: multiTagPaths}` (no `info`)
comes back with an inserted empty `info`, its paths relabelled, and the
`/p2` path object now carrying `x-group-name: c`. -/
theorem parseInputMutation_spec_witness :
    (parseInputMutation ⟨none, some multiTagPaths⟩).info = some ⟨none, none⟩ ∧
    (parseInputMutation ⟨none, some multiTagPaths⟩).paths
      = some (applyGroupNames multiTagPaths) ∧
    ("/p2", (⟨[("get", ⟨some ["c"]⟩)], some "c"⟩ : PathM)) ∈ applyGroupNames multiTagPaths := by
  refine ⟨?_, ?_, ?_⟩
  · exact (parseInputMutation_spec ⟨none, some multiTagPaths⟩).2.2.1 rfl
  · exact (parseInputMutation_spec ⟨none, some multiTagPaths⟩).2.2.2.1 multiTagPaths rfl
  · exact (parseInputMutation_spec ⟨none, some multiTagPaths⟩).2.2.2.2.1 multiTagPaths "/p2"
      ⟨[("get", ⟨some ["c"]⟩)], none⟩ "c" rfl (by simp [multiTagPaths]) rfl (by decide)

theorem queueMeasure_cons (l : List ErrItem) (rest : List (List ErrItem)) :
    queueMeasure (l :: rest) = 1 + weightItems l + queueMeasure rest := by
  simp [queueMeasure, Nat.add_assoc]

theorem queueMeasure_append (a b : List (List ErrItem)) :
    queueMeasure (a ++ b) = queueMeasure a + queueMeasure b := by
  simp [queueMeasure]

theorem totalItems_cons (l : List ErrItem) (rest : List (List ErrItem)) :
    totalItems (l :: rest) = countItems l + totalItems rest := by
  simp [totalItems]

theorem totalItems_append (a b : List (List ErrItem)) :
    totalItems (a ++ b) = totalItems a + totalItems b := by
  simp [totalItems]

theorem queueMeasure_filterMap_inner (l : List ErrItem) :
    queueMeasure (l.filterMap ErrItem.inner) ≤ weightItems l := by
  induction l with
  | nil => simp [queueMeasure]
  | cons x xs ih =>
    rcases x with ⟨p, m, inner⟩
    rw [List.filterMap_cons]
    rcases inner with _ | il
    · simp only [ErrItem.inner]
      have h1 : weightItems (ErrItem.mk p m none :: xs) = 1 + weightItems xs := rfl
      rw [h1]
      omega
    · simp only [ErrItem.inner]
      rw [queueMeasure_cons]
      have h1 : weightItems (ErrItem.mk p m (some il) :: xs) =
        2 + weightItems il + weightItems xs := rfl
      rw [h1]
      omega

theorem countItems_filterMap (l : List ErrItem) :
    countItems l = l.length + totalItems (l.filterMap ErrItem.inner) := by
  induction l with
  | nil => simp [countItems, totalItems]
  | cons x xs ih =>
    rcases x with ⟨p, m, inner⟩
    rw [List.filterMap_cons]
    rcases inner with _ | il
    · simp only [ErrItem.inner]
      have h1 : countItems (ErrItem.mk p m none :: xs) = 1 + countItems xs := rfl
      rw [h1, ih]
      simp
      omega
    · simp only [ErrItem.inner]
      have h1 : countItems (ErrItem.mk p m (some il) :: xs) =
        (1 + countItems il) + countItems xs := rfl
      rw [h1, ih, totalItems_cons]
      simp
      omega

theorem processQueue_acc (fuel : Nat) (q : List (List ErrItem)) (acc : List Diag) :
    processQueue fuel q acc =
      (acc ++ (processQueue fuel q []).1, (processQueue fuel q []).2) := by
  induction fuel generalizing q acc with
  | zero =>
    cases q with
    | nil => simp [processQueue]
    | cons l rest => simp [processQueue]
  | succ fuel ih =>
    cases q with
    | nil => simp [processQueue]
    | cons l rest =>
      rw [processQueue, processQueue]
      rw [ih (rest ++ l.filterMap ErrItem.inner) (acc ++ l.map annotationOf),
        ih (rest ++ l.filterMap ErrItem.inner) ([] ++ l.map annotationOf)]
      simp

theorem processQueue_complete (fuel : Nat) (q : List (List ErrItem))
    (hfuel : queueMeasure q ≤ fuel) :
    (processQueue fuel q []).2 = true ∧
    (processQueue fuel q []).1.length = totalItems q := by
  induction fuel generalizing q with
  | zero =>
    cases q with
    | nil => simp [processQueue, totalItems]
    | cons l rest =>
      rw [queueMeasure_cons] at hfuel
      omega
  | succ fuel ih =>
    cases q with
    | nil => simp [processQueue, totalItems]
    | cons l rest =>
      rw [processQueue, processQueue_acc]
      have hm : queueMeasure (rest ++ l.filterMap ErrItem.inner) ≤ fuel := by
        rw [queueMeasure_append]
        have h2 := queueMeasure_filterMap_inner l
        rw [queueMeasure_cons] at hfuel
        omega
      have hr := ih (rest ++ l.filterMap ErrItem.inner) hm
      constructor
      · simpa using hr.1
      · simp only [List.nil_append, List.length_append, List.length_map]
        rw [hr.2, totalItems_append, totalItems_cons, countItems_filterMap l]
        omega

theorem processQueue_kinds (fuel : Nat) (q : List (List ErrItem)) (acc : List Diag)
    (d : Diag) (hd : d ∈ (processQueue fuel q acc).1) :
    d ∈ acc ∨ d.kind = VALIDATION_ERROR := by
  induction fuel generalizing q acc with
  | zero =>
    cases q with
    | nil =>
      simp [processQueue] at hd
      exact Or.inl hd
    | cons l rest =>
      simp [processQueue] at hd
      exact Or.inl hd
  | succ fuel ih =>
    cases q with
    | nil =>
      simp [processQueue] at hd
      exact Or.inl hd
    | cons l rest =>
      rw [processQueue] at hd
      rcases ih (rest ++ l.filterMap ErrItem.inner) (acc ++ l.map annotationOf) hd with h | h
      · rcases List.mem_append.mp h with h2 | h2
        · exact Or.inl h2
        · right
          rcases List.mem_map.mp h2 with ⟨it, hit, heq⟩
          rw [← heq]
          rfl
      · exact Or.inr h

/-- **C4**: when validation fails with `parser.api` undefined, the
completion callback is invoked exactly once (via the early `return`) with
the error and a result in which no api Category was built; when validation
fails but an API object exists, construction proceeds and the breadth-first
queue drain appends exactly one `VALIDATION_ERROR` diagnostic (warning,
code 4) per error detail and per transitively nested inner sub-error, each
front list being annotated in full before any of its inner lists. -/
theorem validateDispatch_spec (details : Option (List ErrItem)) (det : List ErrItem)
    (prior : List Diag) (fuel : Nat) (hfuel : queueMeasure [det] ≤ fuel) :
    validateDispatch (some details) false prior fuel = (some details, prior, false) ∧
    validateDispatch none true prior fuel = (none, prior, true) ∧
    validateDispatch (some (some det)) true prior fuel =
      (none, prior ++ (processQueue fuel [det] []).1, true) ∧
    (processQueue fuel [det] []).1.length = countItems det ∧
    (∀ d ∈ (processQueue fuel [det] []).1, d.kind = VALIDATION_ERROR) ∧
    VALIDATION_ERROR.type = "warning" ∧ VALIDATION_ERROR.code = 4 ∧
    (∀ fuel2, processQueue (fuel2 + 1) [det] [] =
      processQueue fuel2 (det.filterMap ErrItem.inner) (det.map annotationOf)) := by
  refine ⟨rfl, rfl, rfl, ?_, ?_, rfl, rfl, ?_⟩
  · rw [(processQueue_complete fuel [det] hfuel).2, totalItems_cons]
    simp [totalItems]
  · intro d hd
    rcases processQueue_kinds fuel [det] [] d hd with h | h
    · exact absurd h (List.not_mem_nil d)
    · exact h
  · intro fuel2
    rw [processQueue]
    simp

/-- Witness for C4 at the concrete error tree `errDetails` (two details,
one carrying two nested inner sub-errors): the fatal branch returns the
error with no api Category; the recoverable branch proceeds and produces
exactly four `VALIDATION_ERROR` diagnostics. -/
theorem validateDispatch_spec_witness :
    queueMeasure [errDetails] ≤ 10 ∧
    validateDispatch (some (some errDetails)) false [] 10 =
      (some (some errDetails), [], false) ∧
    validateDispatch (some (some errDetails)) true [] 10 =
      (none, (processQueue 10 [errDetails] []).1, true) ∧
    (processQueue 10 [errDetails] []).1.length = 4 := by
  have h := validateDispatch_spec (some errDetails) errDetails [] 10 (by decide)
  refine ⟨by decide, h.1, ?_, ?_⟩
  · simpa using h.2.2.1
  · rw [h.2.2.2.1]
    decide
